import Mathlib

/-!
Verification of the talemate scene-history core (`src/talemate/tale_mate.py`,
`src/talemate/scene_message.py`) against its natural-language specification.

The embedding below translates the message model, the history-store
operations, the time-reconciliation algorithms, the context-window assembler
and the game-loop error handling into executable Lean definitions.  External
collaborators that the source imports from modules not present under `src/`
(the token counter `util.count_tokens`, the text helpers
`util.iso8601_diff_to_human` and `util.prompt.condensed`, the agent-provided
configuration values) are modelled as parameters collected in an `Env`
structure, following the spec's "External interfaces" section which declares
them opaque pure collaborators.
-/

set_option autoImplicit false

namespace Talemate

/-- Variant tag of a scene message, mirroring the `typ` class attribute of the
`SceneMessage` subclasses in `scene_message.py`. -/
inductive MsgKind where
  | scene
  | character
  | narrator
  | director
  | time
  | reinforcement
  | contextInvestigation
deriving DecidableEq, Repr

/-- A scene message.  The Python code uses one dataclass per variant; the
variant-specific fields (`from_choice` for `CharacterMessage`, `action` for
`DirectorMessage`, `ts` for `TimePassageMessage`, `sub_type` for
`ContextInvestigationMessage`) are carried here with their Python defaults and
are only read on the matching variant, exactly as in the source.  `meta` is
the optional metadata dict; `flags` is the `IntFlag` value (bit 0 = HIDDEN). -/
structure SceneMessage where
  message : String
  id : Nat
  source : String := ""
  meta : Option (List (String × String)) := none
  flags : Nat := 0
  kind : MsgKind := .scene
  from_choice : Option String := none
  action : String := "actor_instruction"
  ts : String := "PT0S"
  sub_type : Option String := none
deriving DecidableEq, Repr

/-- String value of the `typ` attribute for each variant (`scene_message.py`). -/
def SceneMessage.typ (m : SceneMessage) : String :=
  match m.kind with
  | .scene => "scene"
  | .character => "character"
  | .narrator => "narrator"
  | .director => "director"
  | .time => "time"
  | .reinforcement => "reinforcement"
  | .contextInvestigation => "context_investigation"

/-- The `hidden` property: `flags & Flags.HIDDEN` (bit 0). -/
def SceneMessage.hidden (m : SceneMessage) : Bool :=
  m.flags % 2 == 1

/-- Python `s.split(":", 1)[0]`: the part of `s` before the first colon
(`s` itself when no colon occurs). -/
def beforeColon (s : String) : String :=
  ((s.splitOn ":").headD "")

/-- Python `s.split(":", 1)[1]`: the part after the first colon, when a colon
occurs.  The Python expression raises `IndexError` when no colon occurs; the
callers below note where that matters. -/
def afterColon (s : String) : Option String :=
  match s.splitOn ":" with
  | [] => none
  | [_] => none
  | _ :: rest => some (String.intercalate ":" rest)

/-- Python `s.rstrip("\n")`. -/
def rstripNewline (s : String) : String :=
  s.dropRightWhile (fun c => c == '\n')

/-- `DirectorMessage.transformed_message`: strips every occurrence of the
fixed prefix (Python `str.replace` replaces all occurrences). -/
def directorTransformedMessage (m : SceneMessage) : String :=
  m.message.replace "Director instructs " ""

/-- `DirectorMessage.character_name`. -/
def directorCharacterName (m : SceneMessage) : String :=
  if m.action = "actor_instruction" then beforeColon (directorTransformedMessage m)
  else ""

/-- `DirectorMessage.dialogue`.  When the transformed message holds no colon
the Python `split(":", 1)[1]` raises `IndexError`; in the assembler that path
is unreachable because rendering is guarded by a non-empty `character_name`
together with well-formed `"Name: text"` content, and we fall back to `""`. -/
def directorDialogue (m : SceneMessage) : String :=
  if m.action = "actor_instruction" then
    (afterColon (directorTransformedMessage m)).getD ""
  else m.message

/-- `DirectorMessage.instructions`. -/
def directorInstructions (m : SceneMessage) : String :=
  if m.action = "actor_instruction" then
    (((directorDialogue m).replace "\"" "").replace
      "To progress the scene, i want you to " "").trim
  else m.message

/-- Word characters in the sense of the regex `\b` boundary (`[A-Za-z0-9_]`). -/
def isWordChar (c : Char) : Bool :=
  c.isAlphanum || c == '_'

/-- Splits a string into maximal runs of word characters and non-word
characters, preserving order (so concatenating the runs restores the
string). -/
def wordRuns (s : String) : List (List Char) :=
  s.data.splitBy (fun a b => isWordChar a == isWordChar b)

/-- Replaces every whole-word occurrence (regex `\b...\b`) of the words
`yourself`, `your`, `you` by `myself`, `my`, `i` respectively.  The three
sequential `re.sub` calls of `DirectorMessage.as_inner_monologue` are
equivalent to this single pass: word-boundary matches are exactly the maximal
word runs equal to the pattern, and no replacement text contains a later
pattern as a whole run. -/
def personTransform (s : String) : String :=
  String.mk (List.flatten ((wordRuns s).map (fun run =>
    if run = "yourself".data then "myself".data
    else if run = "your".data then "my".data
    else if run = "you".data then "i".data
    else run)))

/-- `DirectorMessage.as_inner_monologue`. -/
def directorAsInnerMonologue (m : SceneMessage) : String :=
  let instr := (directorInstructions m).toLower
  if directorCharacterName m = "" then instr
  else
    directorCharacterName m ++ " thinks: I should " ++ personTransform instr

/-- `DirectorMessage.as_story_progression`. -/
def directorAsStoryProgression (m : SceneMessage) : String :=
  directorCharacterName m ++ "'s next action: " ++ directorInstructions m

/-- `ReinforcementMessage.character_name`: `source.split(":")[1]`.  Raises
`IndexError` in Python when the source holds no colon; modelled as `""`. -/
def reinforcementCharacterName (m : SceneMessage) : String :=
  ((m.source.splitOn ":").getD 1 "")

/-- `CharacterMessage.character_name`. -/
def characterName (m : SceneMessage) : String :=
  beforeColon m.message

/-- `CharacterMessage.as_movie_script`.  The colon-free case raises
`IndexError` in Python; modelled by falling back to the whole message. -/
def characterAsMovieScript (m : SceneMessage) : String :=
  let body := ((afterColon m.message).getD m.message).trim
  "\n" ++ (characterName m).toUpper ++ "\n" ++ body ++ "\nEND-OF-LINE\n"

/-- `ContextInvestigationMessage.title` (`sub_type` driven). -/
def contextInvestigationTitle (m : SceneMessage) : String :=
  let args : List (String × String) :=
    match m.meta with
    | some kv => kv
    | none => []
  let character :=
    match args.lookup "character" with
    | some v => v
    | none => "character"
  let query :=
    match args.lookup "query" with
    | some v => v
    | none => "query"
  if m.sub_type = some "visual-character" then
    "Visual description of " ++ character ++ " in the current moment"
  else if m.sub_type = some "visual-scene" then
    "Visual description of the current moment"
  else if m.sub_type = some "query" then
    "Query: " ++ query
  else "Internal note"

/-- Canonical display string of a message: the per-variant `__str__` from
`scene_message.py`.  The director variant delegates to
`as_format("chat")`, whose default mode is `"direction"`. -/
def msgStr (m : SceneMessage) : String :=
  match m.kind with
  | .director => "# " ++ directorAsStoryProgression m
  | .reinforcement =>
      "# Internal note for " ++ reinforcementCharacterName m ++ " - "
        ++ beforeColon m.source ++ "\n" ++ m.message
  | .contextInvestigation =>
      "# " ++ contextInvestigationTitle m ++ ": " ++ m.message
  | _ => m.message

/-- Python `str[2:]` on our strings. -/
def dropTwoChars (s : String) : String :=
  String.mk (s.data.drop 2)

/-- The `as_format(format, mode=...)` renderer of each variant
(`scene_message.py`). -/
def asFormat (m : SceneMessage) (format : String) (mode : String) : String :=
  match m.kind with
  | .character =>
      if format = "movie_script" then characterAsMovieScript m else m.message
  | .director =>
      if format = "movie_script" then
        if mode = "internal_monologue" then
          "\n(" ++ directorAsInnerMonologue m ++ ")\n"
        else
          "\n(" ++ directorAsStoryProgression m ++ ")\n"
      else
        if mode = "internal_monologue" then "# " ++ directorAsInnerMonologue m
        else "# " ++ directorAsStoryProgression m
  | .reinforcement =>
      if format = "movie_script" then "\n(" ++ dropTwoChars (msgStr m) ++ ")\n"
      else "\n" ++ m.message ++ "\n"
  | .contextInvestigation =>
      if format = "movie_script" then
        ("\n(" ++ dropTwoChars (msgStr m) ++ ")\n").replace "*" ""
      else ("\n" ++ m.message ++ "\n").replace "*" ""
  | _ =>
      if format = "movie_script" then rstripNewline m.message ++ "\n"
      else m.message

/-! ### History store: `edit_message` (`tale_mate.py` 1299-1309) -/

/-- `Scene.edit_message`: forward scan for the first message whose `id`
matches; replace its `message` content and stop.  No match leaves the history
untouched (the Python function simply falls off the loop). -/
def editMessage (history : List SceneMessage) (messageId : Nat)
    (content : String) : List SceneMessage :=
  match history with
  | [] => []
  | m :: rest =>
      if m.id == messageId then { m with message := content } :: rest
      else m :: editMessage rest messageId content

/-! ### Turn-taking controller: the per-iteration exception boundary of
`Scene._run_game_loop` (`tale_mate.py` 2370-2504) -/

/-- Loop-level mutable state touched by the exception handlers of
`_run_game_loop`. -/
structure GameLoopState where
  signal_game_loop : Bool
  skip_to_player : Bool
  next_actor : Option String
  cancel_requested : Bool
deriving DecidableEq, Repr

/-- The exception classes distinguished by the `except` clauses of the game
loop body. -/
inductive LoopException where
  | generationCancelled
  | talemateInterrupt
  | llmAccuracyError
  | talemateError
  | clientDisabled
  | unhandled
deriving DecidableEq, Repr

/-- Whether the `while` loop keeps running after the handler (`continueLoop`)
or the exception escapes the loop (`propagate`). -/
inductive LoopControl where
  | continueLoop
  | propagate
deriving DecidableEq, Repr

/-- The `except` clauses of the game-loop body (`tale_mate.py` 2471-2504):
each handler's effect on the loop state, and whether the loop survives.
`TalemateInterrupt` is re-raised; every other handler falls through to the
next `while` iteration. -/
def handleGameLoopException (e : LoopException) (s : GameLoopState) :
    GameLoopState × LoopControl :=
  match e with
  | .generationCancelled =>
      ({ s with
          signal_game_loop := false
          skip_to_player := true
          next_actor := none
          cancel_requested := false }, .continueLoop)
  | .talemateInterrupt => (s, .propagate)
  | .llmAccuracyError => (s, .continueLoop)
  | .talemateError => (s, .continueLoop)
  | .clientDisabled =>
      ({ s with signal_game_loop := false, skip_to_player := true },
        .continueLoop)
  | .unhandled => (s, .continueLoop)

/-! ### ISO-8601 durations

`util.iso8601_add` and the `isodate` parsing used by `Scene.advance_time`
live outside `src/`.  Modelled from the spec: §3 "Scene Clock: a single
ISO-8601 duration value", §4.3 "summing durations".  A duration value is a
pair (calendar months, seconds); parsing accepts the integral ISO-8601
fragment `P[nY][nM][nW][nD][T[nH][nM][nS]]` with components in order, and
addition is componentwise, as in `isodate`.  Fractional components are
outside the modelled fragment.  Parsing fails (Python: raises) on anything
else. -/

/-- A parsed ISO-8601 duration: calendar months plus fixed seconds. -/
structure Dur where
  months : Nat
  seconds : Nat
deriving DecidableEq, Repr

/-- Componentwise duration addition (as performed by `isodate` on the values
in the modelled fragment). -/
def Dur.add (a b : Dur) : Dur :=
  ⟨a.months + b.months, a.seconds + b.seconds⟩

/-- Numeric value of a digit run. -/
def digitsToNat (cs : List Char) : Nat :=
  cs.foldl (fun acc c => acc * 10 + (c.toNat - '0'.toNat)) 0

/-- Splits a character list into `(number, designator)` segments: each segment
is a non-empty digit run followed by one designator character.  `fuel` bounds
the recursion; callers pass the list length, which always suffices since every
step consumes at least two characters. -/
def parseSegsGo (fuel : Nat) (cs : List Char) : Option (List (Nat × Char)) :=
  match fuel, cs with
  | _, [] => some []
  | 0, _ :: _ => none
  | fuel + 1, cs =>
      let digits := cs.takeWhile Char.isDigit
      if digits.isEmpty then none
      else
        match cs.drop digits.length with
        | [] => none
        | d :: rest =>
            (parseSegsGo fuel rest).map (fun segs => (digitsToNat digits, d) :: segs)

/-- Rank of a date designator (components must appear in `Y M W D` order). -/
def dateRank (c : Char) : Option Nat :=
  if c = 'Y' then some 0
  else if c = 'M' then some 1
  else if c = 'W' then some 2
  else if c = 'D' then some 3
  else none

/-- Rank of a time designator (components must appear in `H M S` order). -/
def timeRank (c : Char) : Option Nat :=
  if c = 'H' then some 0
  else if c = 'M' then some 1
  else if c = 'S' then some 2
  else none

/-- Contribution of one date segment. -/
def dateSegValue (n : Nat) (c : Char) : Dur :=
  if c = 'Y' then ⟨12 * n, 0⟩
  else if c = 'M' then ⟨n, 0⟩
  else if c = 'W' then ⟨0, n * 604800⟩
  else ⟨0, n * 86400⟩

/-- Contribution of one time segment. -/
def timeSegValue (n : Nat) (c : Char) : Dur :=
  if c = 'H' then ⟨0, n * 3600⟩
  else if c = 'M' then ⟨0, n * 60⟩
  else ⟨0, n⟩

/-- Interprets ordered segments with a rank function: designators must be
known and strictly increasing in rank. -/
def interpSegs (rank : Char → Option Nat) (value : Nat → Char → Dur)
    (minRank : Nat) : List (Nat × Char) → Option Dur
  | [] => some ⟨0, 0⟩
  | (n, c) :: rest =>
      match rank c with
      | none => none
      | some r =>
          if minRank ≤ r then
            (interpSegs rank value (r + 1) rest).map (Dur.add (value n c))
          else none

/-- Parses an ISO-8601 duration string over the modelled fragment. -/
def parseISODuration (s : String) : Option Dur :=
  match s.data with
  | 'P' :: rest =>
      let datePart := rest.takeWhile (fun c => c ≠ 'T')
      let timePart := rest.drop datePart.length
      match parseSegsGo datePart.length datePart with
      | none => none
      | some dateSegs =>
          match interpSegs dateRank dateSegValue 0 dateSegs with
          | none => none
          | some d =>
              match timePart with
              | [] => some d
              | _ :: timeRest =>
                  match parseSegsGo timeRest.length timeRest with
                  | none => none
                  | some timeSegs =>
                      (interpSegs timeRank timeSegValue 0 timeSegs).map (Dur.add d)
  | _ => none

/-- Renders one `nX` component, suppressed when zero. -/
def durComp (n : Nat) (c : Char) : String :=
  if n = 0 then "" else Nat.repr n ++ String.mk [c]

/-- Formats a duration back to an ISO-8601 string, mirroring
`isodate.duration_isoformat`: zero formats as `P0D`, otherwise months, days
and a `T` section with hours/minutes/seconds, zero components suppressed. -/
def formatISODuration (d : Dur) : String :=
  if d.months = 0 ∧ d.seconds = 0 then "P0D"
  else
    let days := d.seconds / 86400
    let hours := d.seconds % 86400 / 3600
    let minutes := d.seconds % 3600 / 60
    let secs := d.seconds % 60
    let timeSection :=
      durComp hours 'H' ++ durComp minutes 'M' ++ durComp secs 'S'
    "P" ++ durComp d.months 'M' ++ durComp days 'D'
      ++ (if timeSection = "" then "" else "T" ++ timeSection)

/-- Modelled from the spec: `util.iso8601_add` (absent from `src/`) parses two
ISO-8601 duration strings, adds them and formats the sum; it raises (here:
`none`) when either string fails to parse. -/
def iso8601Add (a b : String) : Option String :=
  match parseISODuration a, parseISODuration b with
  | some x, some y => some (formatISODuration (Dur.add x y))
  | _, _ => none

/-! ### History store state -/

/-- One entry of `archived_history`; a plain dict in the source whose `ts` and
`end` keys may be absent (pre-entered history). -/
structure ArchiveEntry where
  text : String
  ts : Option String := none
  end_idx : Option Nat := none
deriving DecidableEq, Repr

/-- One entry of a `layered_history` layer.  The assembler accesses
`ts_start`, `ts_end` and `end` unconditionally, so they are required here. -/
structure LayerEntry where
  text : String
  ts_start : String
  ts_end : String
  end_idx : Nat
deriving DecidableEq, Repr

/-- The scene state touched by the history-store operations: the live
history, the archive, the summary layers and the Scene Clock `ts`. -/
structure SceneState where
  history : List SceneMessage := []
  archived_history : List ArchiveEntry := []
  layered_history : List (List LayerEntry) := []
  ts : String := "PT0S"
deriving DecidableEq, Repr

/-! ### `Scene.push_history` (`tale_mate.py` 1060-1102) -/

/-- Removes the first element satisfying `p` (no change when none does). -/
def removeFirstMatching (p : SceneMessage → Bool) :
    List SceneMessage → List SceneMessage
  | [] => []
  | x :: xs => if p x then xs else x :: removeFirstMatching p xs

/-- Removes the most recent (last) element satisfying `p`, as the backward
`range(len-1, -1, -1)` scan with `pop(idx)`/`break` does. -/
def removeLastMatching (p : SceneMessage → Bool) (l : List SceneMessage) :
    List SceneMessage :=
  (removeFirstMatching p l.reverse).reverse

/-- Predicate for the director-eviction scan: a `DirectorMessage` with the
given source. -/
def isDirectorWithSource (src : String) (m : SceneMessage) : Bool :=
  m.kind == .director && m.source == src

/-- `Scene.advance_time`: `ts := isoformat(parse(ts) + parse(delta))`.  The
source raises on a malformed duration (uncaught in `push_history`); the model
keeps `ts` unchanged in that case, which affects no claim about the history
contents. -/
def advanceTime (st : SceneState) (delta : String) : SceneState :=
  { st with ts := (iso8601Add st.ts delta).getD st.ts }

/-- The per-message pre-pass of `push_history`: directors evict the most
recent same-source director from the current history; time passages advance
the clock. -/
def pushHistoryStep (st : SceneState) (m : SceneMessage) : SceneState :=
  if m.kind == .director then
    { st with
        history := removeLastMatching (isDirectorWithSource m.source) st.history }
  else if m.kind == .time then advanceTime st m.ts
  else st

/-- `Scene.push_history`: run the pre-pass over the batch, then extend the
history with the whole batch.  (Signal emission is an external notification
sink.) -/
def pushHistory (st : SceneState) (messages : List SceneMessage) : SceneState :=
  let st2 := messages.foldl pushHistoryStep st
  { st2 with history := st2.history ++ messages }

/-- Number of live director messages with the given source. -/
def directorCount (src : String) (h : List SceneMessage) : Nat :=
  h.countP (isDirectorWithSource src)

/-! ### `Scene.collect_messages` (`tale_mate.py` 1203-1231) -/

/-- Filter match of the collect scan: Python `(not typ or m.typ == typ) and
(not source or m.source == source)` (an empty-string filter is falsy in
Python and is represented as `none`). -/
def collectMatch (typ source : Option String) (m : SceneMessage) : Bool :=
  (match typ with | none => true | some t => m.typ == t)
    && (match source with | none => true | some s => m.source == s)

/-- The backward scan of `collect_messages` over the reversed history,
tracking the examined-message counter (`iterations`) and the match counter
(`collected`).  A match is appended before the break tests run, exactly as in
the source, so a final match is retained in every break case. -/
def collectGo (typ source : Option String) (maxIterations : Nat)
    (maxMessages : Option Nat) :
    List SceneMessage → Nat → Nat → List SceneMessage
  | [], _, _ => []
  | m :: rest, iterations, collected =>
      if collectMatch typ source m then
        if maxMessages.any (fun k => decide (collected + 1 ≥ k)) then [m]
        else if iterations + 1 ≥ maxIterations then [m]
        else m :: collectGo typ source maxIterations maxMessages rest
              (iterations + 1) (collected + 1)
      else
        if iterations + 1 ≥ maxIterations then []
        else collectGo typ source maxIterations maxMessages rest
              (iterations + 1) collected

/-- `Scene.collect_messages` (default `max_iterations=100`,
`max_messages=None`): matching messages in scan order, i.e. newest first. -/
def collectMessages (history : List SceneMessage) (typ source : Option String)
    (maxIterations : Nat) (maxMessages : Option Nat) : List SceneMessage :=
  collectGo typ source maxIterations maxMessages history.reverse 0 0

/-! ### `Scene.rerun` (`tale_mate.py` 1765-1816), history effect -/

/-- What `rerun` decides to do after inspecting the history tail.  The
regeneration routines themselves call external agents; the outcome records
which one would run. -/
inductive RerunOutcome where
  | emptyHistory
  | indexError
  | cannotRerunPlayer
  | rerunCharacter (m : SceneMessage)
  | rerunNarrator (m : SceneMessage)
  | rerunDirector (m : SceneMessage)
  | rerunContextInvestigation (m : SceneMessage)
  | noTarget
deriving DecidableEq, Repr

/-- Helper of `popTrailingReinforcements`, working on the reversed history:
splits a leading run of reinforcement messages off. -/
def popReinfGo : List SceneMessage → List SceneMessage × List SceneMessage
  | [] => ([], [])
  | m :: rest =>
      if m.kind == .reinforcement then
        let (remRev, popped) := popReinfGo rest
        (remRev, m :: popped)
      else (m :: rest, [])

/-- Pops trailing reinforcement messages: returns the remaining history and
the popped messages (most recent first, i.e. in pop order). -/
def popTrailingReinforcements (h : List SceneMessage) :
    List SceneMessage × List SceneMessage :=
  let (remRev, popped) := popReinfGo h.reverse
  (remRev.reverse, popped)

/-- The history mutation performed by `Scene.rerun` up to the dispatch of the
regeneration routine: returns the history as left by `rerun` at the moment of
dispatch (or of early return) and the chosen outcome.

Faithful details: an empty history returns at once (`IndexError` caught at
line 1774); after the reinforcement-popping loop empties the history, the
`self.history[-1]` access raises an uncaught `IndexError` (`indexError`
outcome); a message with `source == "player"` and no `from_choice` returns
after a warning, with the popped reinforcement messages *not* restored.  The
`from_choice` attribute only exists on `CharacterMessage`; for other
player-sourced kinds the attribute access would raise — those states are
outside every claim below and share the `cannotRerunPlayer` outcome here. -/
def rerunStep (h : List SceneMessage) : List SceneMessage × RerunOutcome :=
  match h.getLast? with
  | none => (h, .emptyHistory)
  | some _ =>
      let (remaining, _popped) := popTrailingReinforcements h
      match remaining.getLast? with
      | none => (remaining, .indexError)
      | some m =>
          if m.source == "player" && m.from_choice == none then
            (remaining, .cannotRerunPlayer)
          else if m.kind == .character then
            (remaining.dropLast, .rerunCharacter m)
          else if m.kind == .narrator && m.source != "player" then
            (remaining.dropLast, .rerunNarrator m)
          else if m.kind == .director then
            (remaining.dropLast, .rerunDirector m)
          else if m.kind == .contextInvestigation then
            (remaining.dropLast, .rerunContextInvestigation m)
          else (remaining, .noTarget)

/-! ### Time reconciliation (`tale_mate.py` 2115-2191) -/

/-- The `starting_time` scan of `_fix_time`: walk the archive in order; an
entry with `ts` and without `end` updates the baseline; the first entry with
`end` stops the scan. -/
def startingTimeGo (acc : String) : List ArchiveEntry → String
  | [] => acc
  | e :: rest =>
      match e.end_idx with
      | some _ => acc
      | none =>
          match e.ts with
          | some t => startingTimeGo t rest
          | none => startingTimeGo acc rest

/-- Baseline time of `_fix_time` (initial value `"PT0S"`). -/
def startingTimeOf (arch : List ArchiveEntry) : String :=
  startingTimeGo "PT0S" arch

/-- The `(index, duration)` pairs of every `TimePassageMessage` in the
history, in order. -/
def timeJumps (history : List SceneMessage) : List (Nat × String) :=
  history.enum.filterMap (fun p =>
    if p.2.kind == .time then some (p.1, p.2.ts) else none)

/-- The cumulative-sum pass of `_fix_time`: each jump becomes the running
`iso8601_add` total from the baseline; a parse failure raises (`none`). -/
def cumJumps (start : String) : List (Nat × String) → Option (List (Nat × String))
  | [] => some []
  | (i, j) :: rest =>
      match iso8601Add start j with
      | none => none
      | some acc => (cumJumps acc rest).map (fun l => (i, acc) :: l)

/-- The `best_ts` scan: the cumulative value of the last jump whose index is
strictly below `endIdx` (the scan breaks at the first non-smaller index). -/
def bestTs (endIdx : Nat) : List (Nat × String) → Option String → Option String
  | [], acc => acc
  | (i, t) :: rest, acc =>
      if i < endIdx then bestTs endIdx rest (some t) else acc

/-- The archive-mutation pass of `_fix_time`: entries without `end` are
skipped; entries with `end` receive the best cumulative time, or the running
baseline when no jump precedes them.  (`if best_ts:` — the cumulative values
are `formatISODuration` outputs and hence never empty, so Python truthiness
coincides with `isSome`.) -/
def applyJumps (cum : List (Nat × String)) (running : String) :
    List ArchiveEntry → List ArchiveEntry
  | [] => []
  | e :: rest =>
      match e.end_idx with
      | none => e :: applyJumps cum running rest
      | some n =>
          match bestTs n cum none with
          | some b => { e with ts := some b } :: applyJumps cum b rest
          | none => { e with ts := some running } :: applyJumps cum running rest

/-- `Scene._fix_time`: `none` models an exception escaping the body (the only
raising step is the cumulative `iso8601_add` pass, which runs before any
mutation).  On success the new state carries the final cumulative time (or the
baseline when no jumps exist) and the re-timestamped archive. -/
def fixTimeInner (st : SceneState) : Option SceneState :=
  match cumJumps (startingTimeOf st.archived_history) (timeJumps st.history) with
  | none => none
  | some [] => some { st with ts := startingTimeOf st.archived_history }
  | some (c :: cs) =>
      some { st with
              ts := ((c :: cs).getLast (by simp)).2
              archived_history :=
                applyJumps (c :: cs) (startingTimeOf st.archived_history)
                  st.archived_history }

/-- `Scene.fix_time`: runs `_fix_time`, restoring the Scene Clock on any
exception.  (On the failing path no state mutation has happened yet in the
source either, so restoring the whole state is faithful.) -/
def fixTime (st : SceneState) : SceneState :=
  match fixTimeInner st with
  | some st' => st'
  | none => st

/-! ### Context Window Assembler: `Scene.context_history`
(`tale_mate.py` 1563-1763) -/

/-- External collaborators of the assembler, per the spec's "External
interfaces": a deterministic pure token counter, the text helpers
`util.iso8601_diff_to_human` and `util.prompt.condensed`, the agent-supplied
configuration values, and the resolved scene-introduction string
(`Scene.get_intro`, whose player-name substitution involves the external
editor agent). -/
structure Env where
  tok : String → Nat
  diffToHuman : String → String → String
  condense : String → String
  conversationFormat : String
  actorDirectionMode : String
  layeredHistoryEnabled : Bool
  intro : String

/-- `util.count_tokens` on a list of prompt parts: the sum of the per-string
counts (the counter is deterministic and additive over concatenated parts). -/
def tokList (env : Env) (parts : List String) : Nat :=
  (parts.map env.tok).sum

/-- `util.count_tokens` on a single `SceneMessage`: the count of its
canonical display string. -/
def tokMsg (env : Env) (m : SceneMessage) : Nat :=
  env.tok (msgStr m)

/-- The keyword arguments of `context_history`, with their source defaults
(including the source's spelling `include_reinfocements`).  `keep_director`
is `bool | str` in Python; `srcOnly ""` is falsy there, matching `off`. -/
inductive KeepDirector where
  | off
  | on
  | srcOnly (s : String)
deriving DecidableEq, Repr

/-- Python truthiness of the `keep_director` kwarg. -/
def KeepDirector.truthy : KeepDirector → Bool
  | .off => false
  | .on => true
  | .srcOnly s => s != ""

structure CtxParams where
  keep_director : KeepDirector := .off
  keep_context_investigation : Bool := true
  include_reinfocements : Bool := true
  assured_dialogue_num : Nat := 5
  chapter_labels : Bool := false
deriving Repr

/-- Rendering of one archive entry in the no-layered-history branch: the
`try` block builds `"<relative-time>: <text>"` and any failure (notably a
missing `ts` key) falls back to the bare text. -/
def archiveEntryText (env : Env) (sceneTs : String) (e : ArchiveEntry) : String :=
  match e.ts with
  | some t => env.diffToHuman t sceneTs ++ ": " ++ e.text
  | none => e.text

/-- The no-layered-history context walk (`tale_mate.py` 1593-1614): entries
are visited newest first (`l` is the reversed archive); entries without an
`end` key are skipped; the walk stops when the counted text would exceed the
budget; surviving entries are condensed and prepended, so `parts` stays in
chronological order.  Note the source counts the *uncondensed* text but
inserts the condensed one. -/
def archCtxLoop (env : Env) (sceneTs : String) (budget : Nat) :
    List ArchiveEntry → List String → List String
  | [], parts => parts
  | e :: rest, parts =>
      match e.end_idx with
      | none => archCtxLoop env sceneTs budget rest parts
      | some _ =>
          let text := archiveEntryText env sceneTs e
          if tokList env parts + env.tok text > budget then parts
          else archCtxLoop env sceneTs budget rest (env.condense text :: parts)

/-- Rendering of one layered-history entry (`tale_mate.py` 1635-1652),
including the optional synthetic chapter label
`"### Chapter {numLayers - i}.{k + 1}"`. -/
def layerEntryText (env : Env) (p : CtxParams) (sceneTs : String)
    (numLayers i k : Nat) (e : LayerEntry) : String :=
  let startMsg := env.diffToHuman e.ts_start sceneTs
  let endMsg := env.diffToHuman e.ts_end sceneTs
  let timeMsg :=
    if startMsg = endMsg then startMsg
    else "Start:" ++ startMsg ++ ", End:" ++ endMsg
  let text := timeMsg ++ " " ++ e.text
  if p.chapter_labels then
    "### Chapter " ++ Nat.repr (numLayers - i) ++ "." ++ Nat.repr (k + 1)
      ++ "\n" ++ text
  else text

/-- Renders the slice of one layer starting at index `k0`, appending in
order. -/
def layerSliceTexts (env : Env) (p : CtxParams) (sceneTs : String)
    (numLayers i : Nat) (k0 : Nat) (slice : List LayerEntry) : List String :=
  (slice.enum).map (fun q =>
    layerEntryText env p sceneTs numLayers i (k0 + q.1) q.2)

/-- The walk over the summary layers from most-summarized (highest index) to
least (`tale_mate.py` 1621-1658).  `layers` lists `(i, layer)` pairs in
descending `i`; `nextStart` is the running `next_layer_start`.  Empty layers
are skipped; an empty slice leaves `next_layer_start` unchanged (in the
source the stale loop variable reproduces the same value). -/
def layersLoop (env : Env) (p : CtxParams) (sceneTs : String)
    (numLayers : Nat) :
    List (Nat × List LayerEntry) → Option Nat → List String → List String
  | [], _, parts => parts
  | (i, layer) :: rest, nextStart, parts =>
      if layer.isEmpty then
        layersLoop env p sceneTs numLayers rest nextStart parts
      else
        let k0 := nextStart.getD 0
        let slice := layer.drop k0
        let parts' := parts ++ layerSliceTexts env p sceneTs numLayers i k0 slice
        let nextStart' :=
          match slice.getLast? with
          | some last => some (last.end_idx + 1)
          | none => nextStart
        layersLoop env p sceneTs numLayers rest nextStart' parts'

/-- Rendering of the archive entries not yet covered by layer 0
(`tale_mate.py` 1673-1684).  The source reads `entry["ts"]` unguarded here: a
missing key raises an uncaught `KeyError`, so return-value claims are vacuous
on such states; the model renders the bare text instead, which never changes
budget accounting or message selection. -/
def archiveTailTexts (env : Env) (sceneTs : String)
    (entries : List ArchiveEntry) : List String :=
  entries.map (fun e => env.condense (archiveEntryText env sceneTs e))

/-- The context lane before trimming: either the plain archive walk or the
layered walk plus the uncovered archive tail. -/
def contextLaneRaw (env : Env) (p : CtxParams) (st : SceneState)
    (budgetContext : Nat) : List String :=
  let noLayers :=
    st.layered_history.isEmpty || !env.layeredHistoryEnabled
      || (st.layered_history.headD []).isEmpty
  if noLayers then
    archCtxLoop env st.ts budgetContext st.archived_history.reverse []
  else
    let numLayers := st.layered_history.length
    let descLayers := st.layered_history.enum.reverse
    let parts := layersLoop env p st.ts numLayers descLayers none []
    match (st.layered_history.headD []).getLast? with
    | some lastL0 =>
        let tail := st.archived_history.drop (lastL0.end_idx + 1)
        let parts :=
          if p.chapter_labels then parts ++ ["### Current\n"] else parts
        parts ++ archiveTailTexts env st.ts tail
    | none => parts

/-- The final trim of the context lane (`tale_mate.py` 1687-1690): pop from
the oldest end until the lane fits the context sub-budget. -/
def trimContext (env : Env) (budget : Nat) : List String → List String
  | [] => []
  | s :: rest =>
      if tokList env (s :: rest) > budget then trimContext env budget rest
      else s :: rest

/-- The summarized-range cutoff (`tale_mate.py` 1693-1706): the `end` of the
last archive entry (`0` when absent or on `KeyError`), reset to `0` when it
is truthy and reaches the live history length. -/
def summarizedToRaw (arch : List ArchiveEntry) : Nat :=
  match arch.getLast? with
  | none => 0
  | some e =>
      match e.end_idx with
      | none => 0
      | some n => n

def summarizedTo (arch : List ArchiveEntry) (historyLen : Nat) : Nat :=
  if summarizedToRaw arch ≠ 0 ∧ summarizedToRaw arch ≥ historyLen then 0
  else summarizedToRaw arch

/-- The skip chain of the dialogue walk (`tale_mate.py` 1719-1738): hidden
messages; reinforcements unless included; directors unless kept, targeted
and (for a source-specific keep) matching; context investigations unless
kept. -/
def dialogueSkip (p : CtxParams) (m : SceneMessage) : Bool :=
  if m.hidden then true
  else if m.kind == .reinforcement && !p.include_reinfocements then true
  else if m.kind == .director then
    if !p.keep_director.truthy then true
    else if directorCharacterName m = "" then true
    else
      match p.keep_director with
      | .srcOnly s => m.source != s
      | _ => false
  else if m.kind == .contextInvestigation && !p.keep_context_investigation then
    true
  else false

/-- The rendering applied to each surviving dialogue message
(`tale_mate.py` 1744-1747). -/
def dialogueRender (env : Env) (m : SceneMessage) : String :=
  asFormat m env.conversationFormat env.actorDirectionMode

/-- The backward dialogue walk (`tale_mate.py` 1710-1750) over the reversed
indexed history.  It stops early when inside the summarized range with the
assured floor met, skips per `dialogueSkip`, stops when the counted message
would exceed the dialogue sub-budget, otherwise prepends the rendered message
and counts collected `Character` messages.  Returns the lane (chronological)
and the collected count. -/
def dialogueGo (env : Env) (p : CtxParams) (budget sumTo : Nat) :
    List (Nat × SceneMessage) → List String → Nat → List String × Nat
  | [], parts, collected => (parts, collected)
  | (i, m) :: rest, parts, collected =>
      if i < sumTo ∧ collected ≥ p.assured_dialogue_num then (parts, collected)
      else if dialogueSkip p m then dialogueGo env p budget sumTo rest parts collected
      else if tokList env parts + tokMsg env m > budget then (parts, collected)
      else
        dialogueGo env p budget sumTo rest (dialogueRender env m :: parts)
          (collected + if m.kind == .character then 1 else 0)

/-- The assembled lanes before the intro fallback: the trimmed context lane,
the dialogue lane, and the number of collected `Character` messages. -/
def contextHistoryCore (env : Env) (p : CtxParams) (st : SceneState)
    (budget : Nat) : List String × List String × Nat :=
  let budgetContext := budget / 2
  let budgetDialogue := budget / 2
  let ctx := trimContext env budgetContext (contextLaneRaw env p st budgetContext)
  let sumTo := summarizedTo st.archived_history st.history.length
  let (dia, collected) :=
    dialogueGo env p budgetDialogue sumTo st.history.enum.reverse [] 0
  (ctx, dia, collected)

/-- `Scene.context_history`: the two lanes, with the scene introduction
prepended to the context lane when the combined token count falls below the
1024-token threshold and the intro is non-empty (Python truthiness). -/
def contextHistory (env : Env) (p : CtxParams) (st : SceneState)
    (budget : Nat) : List String :=
  let (ctx, dia, _) := contextHistoryCore env p st budget
  if tokList env (ctx ++ dia) < 1024 then
    (if env.intro ≠ "" then env.intro :: ctx else ctx) ++ dia
  else ctx ++ dia

/-- The number of `Character` messages collected into the dialogue lane. -/
def contextHistoryCollected (env : Env) (p : CtxParams) (st : SceneState)
    (budget : Nat) : Nat :=
  (contextHistoryCore env p st budget).2.2

/-! ## Helper lemmas -/

/-- The re-timestamping pass never changes which entries carry an `end` key
nor the entries without one, so the `starting_time` scan is unaffected. -/
theorem startingTimeGo_applyJumps (cum : List (Nat × String)) :
    ∀ (arch : List ArchiveEntry) (running acc : String),
      startingTimeGo acc (applyJumps cum running arch) = startingTimeGo acc arch := by
  intro arch
  induction arch with
  | nil => intro running acc; rfl
  | cons e rest ih =>
      intro running acc
      cases hend : e.end_idx with
      | none =>
          simp only [applyJumps, hend, startingTimeGo]
          cases e.ts with
          | none => exact ih running acc
          | some t => exact ih running t
      | some n =>
          simp only [applyJumps, hend]
          cases hbest : bestTs n cum none with
          | some b => simp [startingTimeGo, hend]
          | none => simp [startingTimeGo, hend]

theorem startingTimeOf_applyJumps (cum : List (Nat × String))
    (running : String) (arch : List ArchiveEntry) :
    startingTimeOf (applyJumps cum running arch) = startingTimeOf arch :=
  startingTimeGo_applyJumps cum arch running "PT0S"

/-- `_fix_time` never touches the live history. -/
theorem fixTimeInner_history (st st' : SceneState)
    (h : fixTimeInner st = some st') : st'.history = st.history := by
  unfold fixTimeInner at h
  cases hcum : cumJumps (startingTimeOf st.archived_history) (timeJumps st.history) with
  | none => simp [hcum] at h
  | some l =>
      cases l with
      | nil => simp [hcum] at h; rw [← h]
      | cons c cs => simp [hcum] at h; rw [← h]

/-- `_fix_time` leaves the `starting_time` baseline of the archive intact. -/
theorem fixTimeInner_startingTime (st st' : SceneState)
    (h : fixTimeInner st = some st') :
    startingTimeOf st'.archived_history = startingTimeOf st.archived_history := by
  unfold fixTimeInner at h
  cases hcum : cumJumps (startingTimeOf st.archived_history) (timeJumps st.history) with
  | none => simp [hcum] at h
  | some l =>
      cases l with
      | nil => simp [hcum] at h; rw [← h]
      | cons c cs =>
          simp [hcum] at h
          rw [← h]
          exact startingTimeOf_applyJumps _ _ _

/-! ## Claim C3 -/

/-- The history of the C3 scenario: a one-day passage, a character line, a
two-day passage. -/
def c3History : List SceneMessage :=
  [ { message := "1 day later", id := 1, source := "manual", kind := .time,
      ts := "P1D" },
    { message := "Alice: hi", id := 2, source := "Alice", kind := .character },
    { message := "2 days later", id := 3, source := "manual", kind := .time,
      ts := "P2D" } ]

/-- C3: full time reconciliation on the history
`[TimePassage "P1D", Character "Alice: hi", TimePassage "P2D"]` with an empty
archive sets the Scene Clock to three days elapsed (`"P3D"`, i.e.
259200 seconds), whatever the clock held before. -/
theorem c3_fix_time_three_days (ts0 : String) :
    (fixTime { history := c3History, archived_history := [],
               layered_history := [], ts := ts0 }).ts = "P3D"
    ∧ parseISODuration "P3D" = some ⟨0, 259200⟩ := by
  constructor
  · rfl
  · rfl

/-! ## Claim C4 -/

/-- C4: whenever full time reconciliation fails internally (any exception in
`_fix_time`), the wrapper `fix_time` leaves the Scene Clock exactly as it
was, and no failure escapes to the caller (`fixTime` is total). -/
theorem c4_fix_time_rollback (st : SceneState)
    (h : fixTimeInner st = none) : (fixTime st).ts = st.ts := by
  unfold fixTime
  rw [h]

/-- A scene whose history carries a malformed time-passage duration, making
the cumulative `iso8601_add` pass raise. -/
def c4BadScene : SceneState :=
  { history := [ { message := "later", id := 1, source := "manual",
                   kind := .time, ts := "bogus" } ],
    archived_history := [], layered_history := [], ts := "PT5S" }

theorem c4_fix_time_rollback_witness :
    fixTimeInner c4BadScene = none ∧ (fixTime c4BadScene).ts = c4BadScene.ts :=
  ⟨rfl, c4_fix_time_rollback c4BadScene rfl⟩

/-! ## Claim C5 -/

/-- C5: running full time reconciliation twice in a row without intervening
mutation of the history, archive or layers yields the same Scene Clock after
the second run as after the first. -/
theorem c5_fix_time_idempotent (st : SceneState) :
    (fixTime (fixTime st)).ts = (fixTime st).ts := by
  cases hinner : fixTimeInner st with
  | none =>
      have h1 : fixTime st = st := by unfold fixTime; rw [hinner]
      rw [h1, h1]
  | some st' =>
      have h1 : fixTime st = st' := by unfold fixTime; rw [hinner]
      rw [h1]
      have hh : st'.history = st.history := fixTimeInner_history st st' hinner
      have hs : startingTimeOf st'.archived_history
          = startingTimeOf st.archived_history :=
        fixTimeInner_startingTime st st' hinner
      unfold fixTimeInner at hinner
      cases hcum : cumJumps (startingTimeOf st.archived_history)
          (timeJumps st.history) with
      | none => simp [hcum] at hinner
      | some l =>
          cases l with
          | nil =>
              simp [hcum] at hinner
              have h2 : fixTimeInner st' = some { st' with
                  ts := startingTimeOf st.archived_history } := by
                unfold fixTimeInner
                rw [hs, hh, hcum]
              unfold fixTime
              rw [h2, ← hinner]
          | cons c cs =>
              simp [hcum] at hinner
              have h2 : fixTimeInner st' = some { st' with
                  ts := ((c :: cs).getLast (by simp)).2
                  archived_history :=
                    applyJumps (c :: cs) (startingTimeOf st.archived_history)
                      st'.archived_history } := by
                unfold fixTimeInner
                rw [hs, hh, hcum]
              unfold fixTime
              rw [h2, ← hinner]

/-! ## Claim C8 -/

/-- C8: when the cancellation condition (`GenerationCancelled`) reaches the
game loop's exception boundary, the handler resets `next_actor` to none,
sets `skip_to_player`, clears the `cancel_requested` flag (and suppresses the
loop-start signal), and the `while` loop continues rather than terminating. -/
theorem c8_generation_cancelled_recovered (s : GameLoopState) :
    handleGameLoopException .generationCancelled s =
      ({ signal_game_loop := false, skip_to_player := true,
         next_actor := none, cancel_requested := false }, .continueLoop) := rfl

/-! ## Claim C9 -/

/-- C9: `edit_message` replaces only the `message` content of the first
message whose id matches, keeping its other fields, every other message, and
the history's length and order intact; with no matching id the history is
returned unchanged (and no error is raised — the function is total). -/
theorem c9_edit_message_frame (h : List SceneMessage) (mid : Nat) (c : String) :
    (editMessage h mid c).length = h.length
    ∧ ((∀ m ∈ h, m.id ≠ mid) → editMessage h mid c = h)
    ∧ (∀ pre x post, h = pre ++ x :: post → (∀ m ∈ pre, m.id ≠ mid) →
        x.id = mid →
        editMessage h mid c = pre ++ { x with message := c } :: post) := by
  refine ⟨?_, ?_, ?_⟩
  · induction h with
    | nil => rfl
    | cons m rest ih =>
        by_cases hm : m.id = mid
        · simp [editMessage, hm]
        · simp [editMessage, hm, ih]
  · intro hno
    induction h with
    | nil => rfl
    | cons m rest ih =>
        have hm : m.id ≠ mid := hno m (by simp)
        simp only [editMessage, beq_iff_eq, hm, if_false, if_neg hm]
        rw [ih (fun x hx => hno x (by simp [hx]))]
  · intro pre x post hsplit hpre hx
    subst hsplit
    induction pre with
    | nil => simp [editMessage, hx]
    | cons m rest ih =>
        have hm : m.id ≠ mid := hpre m (by simp)
        simp [editMessage, hm, ih (fun y hy => hpre y (by simp [hy]))]

/-- Example messages used by the C9 witness. -/
def c9M1 : SceneMessage :=
  { message := "Alice: one", id := 6, source := "Alice", kind := .character }

def c9M2 : SceneMessage :=
  { message := "narration", id := 7, source := "progress_story",
    kind := .narrator }

theorem c9_edit_message_frame_witness :
    (editMessage [c9M1, c9M2] 7 "revised").length = 2
    ∧ editMessage [c9M1, c9M2] 7 "revised"
        = [c9M1, { c9M2 with message := "revised" }]
    ∧ editMessage [c9M1, c9M2] 99 "revised" = [c9M1, c9M2] := by
  refine ⟨(c9_edit_message_frame [c9M1, c9M2] 7 "revised").1, ?_, ?_⟩
  · exact (c9_edit_message_frame [c9M1, c9M2] 7 "revised").2.2
      [c9M1] c9M2 [] rfl (by decide) rfl
  · exact (c9_edit_message_frame [c9M1, c9M2] 99 "revised").2.1 (by decide)

/-! ## Claim C2 -/

theorem countP_removeFirstMatching_le (p q : SceneMessage → Bool) :
    ∀ l : List SceneMessage,
      (removeFirstMatching p l).countP q ≤ l.countP q := by
  intro l
  induction l with
  | nil => simp [removeFirstMatching]
  | cons x xs ih =>
      by_cases hx : p x
      · simp only [removeFirstMatching, if_pos hx]
        simp [List.countP_cons]
      · simp only [removeFirstMatching, if_neg hx]
        simp only [List.countP_cons]
        omega

theorem countP_removeFirstMatching_self (p : SceneMessage → Bool) :
    ∀ l : List SceneMessage, l.countP p ≤ 1 →
      (removeFirstMatching p l).countP p = 0 := by
  intro l
  induction l with
  | nil => simp [removeFirstMatching]
  | cons x xs ih =>
      intro hle
      by_cases hx : p x
      · simp only [removeFirstMatching, if_pos hx]
        simp only [List.countP_cons, hx, if_pos] at hle
        have : xs.countP p = 0 := by omega
        exact this
      · simp only [removeFirstMatching, if_neg hx]
        simp only [List.countP_cons, hx] at hle ⊢
        simp only [if_neg, Bool.false_eq_true]
        have := ih (by omega)
        simpa using this

theorem countP_reverse (q : SceneMessage → Bool) (l : List SceneMessage) :
    l.reverse.countP q = l.countP q := by
  induction l with
  | nil => rfl
  | cons x xs ih =>
      simp [List.countP_cons, List.countP_append, ih]

theorem countP_removeLastMatching_le (p q : SceneMessage → Bool)
    (l : List SceneMessage) :
    (removeLastMatching p l).countP q ≤ l.countP q := by
  unfold removeLastMatching
  rw [countP_reverse]
  calc (removeFirstMatching p l.reverse).countP q
      ≤ l.reverse.countP q := countP_removeFirstMatching_le p q l.reverse
    _ = l.countP q := countP_reverse q l

theorem countP_removeLastMatching_self (p : SceneMessage → Bool)
    (l : List SceneMessage) (h : l.countP p ≤ 1) :
    (removeLastMatching p l).countP p = 0 := by
  unfold removeLastMatching
  rw [countP_reverse]
  exact countP_removeFirstMatching_self p l.reverse (by rwa [countP_reverse])

/-- One batch-pre-pass step never increases the number of live directors with
any source. -/
theorem pushHistoryStep_directorCount_le (src : String) (st : SceneState)
    (m : SceneMessage) :
    directorCount src (pushHistoryStep st m).history
      ≤ directorCount src st.history := by
  unfold pushHistoryStep directorCount
  by_cases hd : m.kind == .director
  · simp only [hd, if_pos]
    exact countP_removeLastMatching_le _ _ _
  · simp only [hd, Bool.false_eq_true, if_neg, if_false]
    by_cases ht : m.kind == .time
    · simp [ht, advanceTime]
    · simp [ht]

theorem foldl_pushHistoryStep_directorCount_le (src : String) :
    ∀ (b : List SceneMessage) (st : SceneState),
      directorCount src (b.foldl pushHistoryStep st).history
        ≤ directorCount src st.history := by
  intro b
  induction b with
  | nil => intro st; exact Nat.le_refl _
  | cons m rest ih =>
      intro st
      calc directorCount src ((m :: rest).foldl pushHistoryStep st).history
          = directorCount src (rest.foldl pushHistoryStep
              (pushHistoryStep st m)).history := rfl
        _ ≤ directorCount src (pushHistoryStep st m).history := ih _
        _ ≤ directorCount src st.history :=
            pushHistoryStep_directorCount_le src st m

/-- Once a same-source director occurs in the batch, the pre-pass clears the
live history of that source (given the invariant held before). -/
theorem foldl_pushHistoryStep_directorCount_zero (src : String) :
    ∀ (b : List SceneMessage) (st : SceneState),
      directorCount src st.history ≤ 1 →
      (∃ m ∈ b, isDirectorWithSource src m) →
      directorCount src (b.foldl pushHistoryStep st).history = 0 := by
  intro b
  induction b with
  | nil =>
      intro st _ hex
      simp at hex
  | cons m rest ih =>
      intro st hle hex
      by_cases hm : isDirectorWithSource src m
      · have hkind : m.kind == .director := by
          unfold isDirectorWithSource at hm
          exact (Bool.and_eq_true _ _ ▸ hm).1
        have hstep : directorCount src (pushHistoryStep st m).history = 0 := by
          unfold pushHistoryStep
          simp only [hkind, if_pos]
          unfold directorCount
          have hsrc : (isDirectorWithSource m.source)
              = (isDirectorWithSource src) := by
            unfold isDirectorWithSource at hm ⊢
            have : m.source == src := (Bool.and_eq_true _ _ ▸ hm).2
            rw [show m.source = src from by simpa using this]
          rw [hsrc]
          exact countP_removeLastMatching_self _ _ hle
        have := foldl_pushHistoryStep_directorCount_le src rest
          (pushHistoryStep st m)
        have hgoal : directorCount src
            ((m :: rest).foldl pushHistoryStep st).history
            = directorCount src (rest.foldl pushHistoryStep
              (pushHistoryStep st m)).history := rfl
        rw [hgoal]
        omega
      · rcases hex with ⟨x, hx, hxd⟩
        rcases List.mem_cons.mp hx with hxm | hxrest
        · exact absurd (hxm ▸ hxd) hm
        · have hle' : directorCount src (pushHistoryStep st m).history ≤ 1 :=
            Nat.le_trans (pushHistoryStep_directorCount_le src st m) hle
          exact ih (pushHistoryStep st m) hle' ⟨x, hxrest, hxd⟩

/-- A single `push_history` call whose batch holds at most one director per
source preserves the invariant. -/
theorem pushHistory_directorCount_le (src : String) (st : SceneState)
    (b : List SceneMessage)
    (hst : directorCount src st.history ≤ 1)
    (hb : b.countP (isDirectorWithSource src) ≤ 1) :
    directorCount src (pushHistory st b).history ≤ 1 := by
  unfold pushHistory directorCount
  rw [List.countP_append]
  by_cases hzero : b.countP (isDirectorWithSource src) = 0
  · have := foldl_pushHistoryStep_directorCount_le src b st
    unfold directorCount at this hst
    omega
  · have hpos : 0 < b.countP (isDirectorWithSource src) := Nat.pos_of_ne_zero hzero
    have hex : ∃ m ∈ b, isDirectorWithSource src m := by
      simpa using List.countP_pos_iff.mp hpos
    have := foldl_pushHistoryStep_directorCount_zero src b st hst hex
    unfold directorCount at this
    omega

/-- C2 (amended): for every sequence of `push_history` calls in which no
single batch contains two director messages with the same source, starting
from a history satisfying the invariant, every intermediate and final history
holds at most one live director message per source. -/
theorem c2_push_history_director_invariant (batches : List (List SceneMessage))
    (st : SceneState)
    (hst : ∀ src, directorCount src st.history ≤ 1)
    (hb : ∀ b ∈ batches, ∀ src, b.countP (isDirectorWithSource src) ≤ 1) :
    ∀ src, directorCount src (batches.foldl pushHistory st).history ≤ 1 := by
  induction batches generalizing st with
  | nil => exact hst
  | cons b rest ih =>
      intro src
      have hst' : ∀ s, directorCount s (pushHistory st b).history ≤ 1 :=
        fun s => pushHistory_directorCount_le s st b (hst s)
          (hb b (by simp) s)
      exact ih (pushHistory st b) hst'
        (fun b' hb' s => hb b' (by simp [hb']) s) src

/-- Two director messages aimed at the same character source. -/
def c2DirBob1 : SceneMessage :=
  { message := "Director instructs Bob: wave", id := 21, source := "Bob",
    kind := .director }

def c2DirBob2 : SceneMessage :=
  { message := "Director instructs Bob: sit", id := 22, source := "Bob",
    kind := .director }

/-- C2 counterexample: one `push_history` call whose batch holds two
`Director` messages with source `"Bob"` leaves **two** live Director/Bob
messages — the eviction scan only inspects the pre-existing history, so the
claimed invariant fails for batched appends. -/
theorem c2_counterexample :
    directorCount "Bob"
      (pushHistory { history := [], archived_history := [],
                     layered_history := [], ts := "PT0S" }
        [c2DirBob1, c2DirBob2]).history = 2 := by decide

theorem c2_push_history_director_invariant_witness :
    directorCount "Bob"
      (([[c2DirBob1], [c2DirBob2]] : List (List SceneMessage)).foldl
        pushHistory
        { history := [], archived_history := [], layered_history := [],
          ts := "PT0S" }).history ≤ 1 :=
  c2_push_history_director_invariant [[c2DirBob1], [c2DirBob2]]
    { history := [], archived_history := [], layered_history := [],
      ts := "PT0S" }
    (fun _ => by simp [directorCount])
    (fun b hb src => by
      rcases List.mem_cons.mp hb with h | h
      · subst h
        exact Nat.le_trans (List.countP_le_length _) (by simp)
      · rcases List.mem_cons.mp h with h' | h'
        · subst h'
          exact Nat.le_trans (List.countP_le_length _) (by simp)
        · simp at h')
    "Bob"

/-! ## Claim C6 -/

theorem collectGo_sublist (typ source : Option String) (maxIterations : Nat)
    (maxMessages : Option Nat) :
    ∀ (l : List SceneMessage) (iterations collected : Nat),
      (collectGo typ source maxIterations maxMessages l iterations collected).Sublist l := by
  intro l
  induction l with
  | nil => intro _ _; simp [collectGo]
  | cons m rest ih =>
      intro iterations collected
      unfold collectGo
      by_cases hm : collectMatch typ source m
      · simp only [hm, if_pos]
        by_cases hmax : maxMessages.any (fun k => decide (collected + 1 ≥ k))
        · simp only [hmax, if_pos]
          exact (List.nil_sublist rest).cons₂ m
        · simp only [hmax, Bool.false_eq_true, if_false]
          by_cases hiter : iterations + 1 ≥ maxIterations
          · simp only [if_pos hiter]
            exact (List.nil_sublist rest).cons₂ m
          · simp only [if_neg hiter]
            exact (ih (iterations + 1) (collected + 1)).cons₂ m
      · simp only [hm, Bool.false_eq_true, if_false]
        by_cases hiter : iterations + 1 ≥ maxIterations
        · simp only [if_pos hiter]
          exact List.nil_sublist _
        · simp only [if_neg hiter]
          exact (ih (iterations + 1) collected).cons m

theorem collectGo_matches (typ source : Option String) (maxIterations : Nat)
    (maxMessages : Option Nat) :
    ∀ (l : List SceneMessage) (iterations collected : Nat),
      ∀ m ∈ collectGo typ source maxIterations maxMessages l iterations collected,
        collectMatch typ source m = true := by
  intro l
  induction l with
  | nil => intro _ _ m hm; simp [collectGo] at hm
  | cons x rest ih =>
      intro iterations collected m hm
      unfold collectGo at hm
      by_cases hx : collectMatch typ source x
      · simp only [hx, if_pos] at hm
        by_cases hmax : maxMessages.any (fun k => decide (collected + 1 ≥ k))
        · simp only [hmax, if_pos] at hm
          simp at hm
          exact hm ▸ hx
        · simp only [hmax, Bool.false_eq_true, if_false] at hm
          by_cases hiter : iterations + 1 ≥ maxIterations
          · simp only [if_pos hiter] at hm
            simp at hm
            exact hm ▸ hx
          · simp only [if_neg hiter] at hm
            rcases List.mem_cons.mp hm with h | h
            · exact h ▸ hx
            · exact ih _ _ m h
      · simp only [hx, Bool.false_eq_true, if_false] at hm
        by_cases hiter : iterations + 1 ≥ maxIterations
        · simp only [if_pos hiter] at hm
          simp at hm
        · simp only [if_neg hiter] at hm
          exact ih _ _ m hm

theorem collectGo_length (typ source : Option String) (maxIterations k : Nat) :
    ∀ (l : List SceneMessage) (iterations collected : Nat),
      (collectGo typ source maxIterations (some k) l iterations collected).length
        ≤ max (k - collected) 1 := by
  intro l
  induction l with
  | nil => intro _ _; simp [collectGo]
  | cons x rest ih =>
      intro iterations collected
      unfold collectGo
      by_cases hx : collectMatch typ source x
      · simp only [hx, if_pos]
        by_cases hmax : (some k).any (fun j => decide (collected + 1 ≥ j))
        · simp only [hmax, if_pos]
          simp
        · simp only [hmax, Bool.false_eq_true, if_false]
          have hk : collected + 1 < k := by
            simp [Option.any] at hmax
            omega
          by_cases hiter : iterations + 1 ≥ maxIterations
          · simp only [if_pos hiter]
            simp
          · simp only [if_neg hiter]
            have := ih (iterations + 1) (collected + 1)
            simp only [List.length_cons]
            omega
      · simp only [hx, Bool.false_eq_true, if_false]
        by_cases hiter : iterations + 1 ≥ maxIterations
        · simp only [if_pos hiter]
          simp
        · simp only [if_neg hiter]
          exact ih (iterations + 1) collected

/-- The scan examines at most `max (maxIterations - iterations) 1` messages
of the remaining suffix: the examined-counter break fires once the allowance
is used up, and one message is always examined before the first test. -/
theorem collectGo_sublist_take (typ source : Option String)
    (maxIterations : Nat) (maxMessages : Option Nat) :
    ∀ (l : List SceneMessage) (iterations collected : Nat),
      (collectGo typ source maxIterations maxMessages l iterations
          collected).Sublist
        (l.take (max (maxIterations - iterations) 1)) := by
  intro l
  induction l with
  | nil => intro _ _; simp [collectGo]
  | cons m rest ih =>
      intro iterations collected
      obtain ⟨j, hj⟩ : ∃ j, max (maxIterations - iterations) 1 = j + 1 :=
        ⟨max (maxIterations - iterations) 1 - 1, by omega⟩
      rw [hj, List.take_succ_cons]
      unfold collectGo
      by_cases hm : collectMatch typ source m
      · simp only [hm, if_pos]
        by_cases hmax : maxMessages.any (fun k => decide (collected + 1 ≥ k))
        · simp only [hmax, if_pos]
          exact (List.nil_sublist _).cons₂ m
        · simp only [hmax, Bool.false_eq_true, if_false]
          by_cases hiter : iterations + 1 ≥ maxIterations
          · simp only [if_pos hiter]
            exact (List.nil_sublist _).cons₂ m
          · simp only [if_neg hiter]
            have hrec := ih (iterations + 1) (collected + 1)
            have hallow : max (maxIterations - (iterations + 1)) 1
                = maxIterations - iterations - 1 := by omega
            have hjv : j = maxIterations - iterations - 1 := by omega
            rw [hallow, ← hjv] at hrec
            exact hrec.cons₂ m
      · simp only [hm, Bool.false_eq_true, if_false]
        by_cases hiter : iterations + 1 ≥ maxIterations
        · simp only [if_pos hiter]
          exact List.nil_sublist _
        · simp only [if_neg hiter]
          have hrec := ih (iterations + 1) collected
          have hallow : max (maxIterations - (iterations + 1)) 1
              = maxIterations - iterations - 1 := by omega
          have hjv : j = maxIterations - iterations - 1 := by omega
          rw [hallow, ← hjv] at hrec
          exact hrec.cons m

/-- C6 (amended): `collect_messages` returns the matching messages in
**reverse** chronological order — the result is a sublist of the reversed
history, so the newest match comes first; the backward scan examines at most
`max max_scan 1` messages from the end, so the result is a sublist of the
first `max max_scan 1` entries of the reversed history (one message is always
examined before the counter test, so `max_scan = 0` still examines one);
every returned message satisfies the type/source filter; and when
`max_results` is supplied at most `max max_results 1` messages are returned
(a final match is appended before the limit test, so a limit of `0` still
yields one message). -/
theorem c6_collect_messages_reversed (history : List SceneMessage)
    (typ source : Option String) (maxIterations : Nat)
    (maxMessages : Option Nat) :
    (collectMessages history typ source maxIterations maxMessages).Sublist
        history.reverse
    ∧ (collectMessages history typ source maxIterations maxMessages).Sublist
        (history.reverse.take (max maxIterations 1))
    ∧ (∀ m ∈ collectMessages history typ source maxIterations maxMessages,
        collectMatch typ source m = true)
    ∧ (∀ k, maxMessages = some k →
        (collectMessages history typ source maxIterations maxMessages).length
          ≤ max k 1) := by
  refine ⟨collectGo_sublist typ source maxIterations maxMessages
      history.reverse 0 0,
    ?_,
    collectGo_matches typ source maxIterations maxMessages history.reverse 0 0,
    ?_⟩
  · have := collectGo_sublist_take typ source maxIterations maxMessages
      history.reverse 0 0
    simpa using this
  · intro k hk
    subst hk
    simpa using collectGo_length typ source maxIterations k history.reverse 0 0

/-- Two narrator messages: `c6Old` was appended before `c6New`. -/
def c6Old : SceneMessage :=
  { message := "first narration", id := 31, source := "progress_story",
    kind := .narrator }

def c6New : SceneMessage :=
  { message := "second narration", id := 32, source := "progress_story",
    kind := .narrator }

/-- C6 counterexample: on a two-message history where both messages match,
`collect_messages` returns `[newest, oldest]`, not the chronological
`[oldest, newest]` the claim requires; moreover both caps are off by the
final appended match — `max_results = 0` still collects one message, and
`max_scan = 0` still examines (and here returns) one message. -/
theorem c6_counterexample :
    collectMessages [c6Old, c6New] none none 100 none = [c6New, c6Old]
    ∧ collectMessages [c6Old, c6New] none none 100 none ≠ [c6Old, c6New]
    ∧ collectMessages [c6Old, c6New] none none 100 (some 0) = [c6New]
    ∧ collectMessages [c6Old, c6New] none none 0 none = [c6New] := by
  refine ⟨by decide, ?_, by decide, by decide⟩
  intro h
  have : c6New = c6Old := by
    have h2 : collectMessages [c6Old, c6New] none none 100 none
        = [c6New, c6Old] := by decide
    rw [h2] at h
    exact (List.cons.injEq _ _ _ _ ▸ h).1
  simp [c6New, c6Old] at this

theorem c6_collect_messages_reversed_witness :
    (collectMessages [c6Old, c6New] none none 100 (some 1)).Sublist
        ([c6Old, c6New] : List SceneMessage).reverse
    ∧ (collectMessages [c6Old, c6New] none none 100 (some 1)).Sublist
        (([c6Old, c6New] : List SceneMessage).reverse.take (max 100 1))
    ∧ (collectMessages [c6Old, c6New] none none 100 (some 1)).length
        ≤ max 1 1 :=
  ⟨(c6_collect_messages_reversed [c6Old, c6New] none none 100 (some 1)).1,
   (c6_collect_messages_reversed [c6Old, c6New] none none 100 (some 1)).2.1,
   (c6_collect_messages_reversed [c6Old, c6New] none none 100 (some 1)).2.2.2
      1 rfl⟩

/-! ## Claim C7 -/

/-- C7 (amended): when the **last** message of the history is a
player-authored `Character` message without a `from_choice` tag, `rerun` is a
benign no-op: the history is returned unchanged and the outcome is the
user-visible "cannot rerun" notice.  (When trailing `Reinforcement` messages
follow such a player message they are popped and not restored — see the
counterexample — so the claim's "most recent non-Reinforcement message"
scope does not hold.) -/
theorem c7_rerun_player_noop (h : List SceneMessage) (m : SceneMessage)
    (hlast : h.getLast? = some m) (hkind : m.kind = .character)
    (hsrc : m.source = "player") (hchoice : m.from_choice = none) :
    rerunStep h = (h, .cannotRerunPlayer) := by
  have hrev : ∃ t, h.reverse = m :: t := by
    cases hr : h.reverse with
    | nil =>
        have : h = [] := by simpa using congrArg List.reverse hr
        rw [this] at hlast
        simp at hlast
    | cons a t =>
        have ha : h.reverse.head? = some a := by rw [hr]; rfl
        rw [List.head?_reverse] at ha
        rw [hlast] at ha
        injection ha with ham
        subst ham
        exact ⟨t, rfl⟩
  rcases hrev with ⟨t, ht⟩
  have hpop : popTrailingReinforcements h = (h, []) := by
    unfold popTrailingReinforcements
    rw [ht]
    unfold popReinfGo
    have : (m.kind == MsgKind.reinforcement) = false := by
      simp [hkind]
    rw [this]
    simp only [Bool.false_eq_true, if_false]
    have : (m :: t).reverse = h := by
      rw [← ht, List.reverse_reverse]
    simp [this]
  unfold rerunStep
  rw [hlast]
  simp only [hpop]
  rw [hlast]
  have hcheck : (m.source == "player" && m.from_choice == none) = true := by
    simp [hsrc, hchoice]
  simp [hcheck]

/-- A player-authored character message with no recorded choice. -/
def c7Player : SceneMessage :=
  { message := "Bob: hello", id := 41, source := "player",
    kind := .character, from_choice := none }

/-- A trailing reinforcement message. -/
def c7Reinf : SceneMessage :=
  { message := "state note", id := 42, source := "mood:Bob",
    kind := .reinforcement }

/-- C7 counterexample: with history `[player-character, reinforcement]` the
most recent non-Reinforcement message is a player `Character` message without
`from_choice`, yet `rerun` mutates the history — the popped reinforcement is
not restored on the early return. -/
theorem c7_counterexample :
    rerunStep [c7Player, c7Reinf] = ([c7Player], .cannotRerunPlayer)
    ∧ [c7Player] ≠ [c7Player, c7Reinf] := by
  refine ⟨by decide, by simp⟩

theorem c7_rerun_player_noop_witness :
    rerunStep [c7Player] = ([c7Player], .cannotRerunPlayer) :=
  c7_rerun_player_noop [c7Player] c7Player rfl rfl rfl rfl

/-! ## Claim C1 -/

theorem tokList_nil (env : Env) : tokList env [] = 0 := rfl

theorem tokList_cons (env : Env) (s : String) (l : List String) :
    tokList env (s :: l) = env.tok s + tokList env l := by
  simp [tokList]

theorem tokList_append (env : Env) (a b : List String) :
    tokList env (a ++ b) = tokList env a + tokList env b := by
  simp [tokList]

/-- The trim loop leaves the context lane within its sub-budget (the lane can
always be emptied, and an empty lane counts zero). -/
theorem trimContext_le (env : Env) (budget : Nat) :
    ∀ l : List String, tokList env (trimContext env budget l) ≤ budget := by
  intro l
  induction l with
  | nil => simp [trimContext, tokList_nil]
  | cons s rest ih =>
      unfold trimContext
      by_cases hgt : tokList env (s :: rest) > budget
      · simp only [if_pos hgt]
        exact ih
      · simp only [if_neg hgt]
        omega

theorem snd_mem_of_mem_enumFrom {α : Type} :
    ∀ (l : List α) (n : Nat) (p : Nat × α), p ∈ l.enumFrom n → p.2 ∈ l := by
  intro l
  induction l with
  | nil => intro n p hp; simp [List.enumFrom] at hp
  | cons x xs ih =>
      intro n p hp
      simp only [List.enumFrom] at hp
      rcases List.mem_cons.mp hp with h | h
      · rw [h]; simp
      · exact List.mem_cons_of_mem x (ih (n + 1) p h)

/-- The dialogue walk maintains its running token bound: the walk never
inserts a message whose counted size would push the counted lane over the
sub-budget, so under a rendering that counts no larger than the counted
message (`hr`), the rendered lane stays within the sub-budget. -/
theorem dialogueGo_tok_le (env : Env) (p : CtxParams) (budget sumTo : Nat) :
    ∀ (l : List (Nat × SceneMessage)) (parts : List String) (collected : Nat),
      tokList env parts ≤ budget →
      (∀ q ∈ l, env.tok (dialogueRender env q.2) ≤ tokMsg env q.2) →
      tokList env (dialogueGo env p budget sumTo l parts collected).1 ≤ budget := by
  intro l
  induction l with
  | nil => intro parts collected hparts _; exact hparts
  | cons q rest ih =>
      intro parts collected hparts hr
      rcases q with ⟨i, m⟩
      unfold dialogueGo
      by_cases hstop : i < sumTo ∧ collected ≥ p.assured_dialogue_num
      · simp only [if_pos hstop]
        exact hparts
      · simp only [if_neg hstop]
        by_cases hskip : dialogueSkip p m
        · simp only [hskip, if_pos]
          exact ih parts collected hparts (fun q hq => hr q (by simp [hq]))
        · simp only [hskip, Bool.false_eq_true, if_false]
          by_cases hbudget : tokList env parts + tokMsg env m > budget
          · simp only [if_pos hbudget]
            exact hparts
          · simp only [if_neg hbudget]
            have hrm : env.tok (dialogueRender env m) ≤ tokMsg env m :=
              hr (i, m) (by simp)
            have hnew : tokList env (dialogueRender env m :: parts) ≤ budget := by
              rw [tokList_cons]
              omega
            exact ih _ _ hnew (fun q hq => hr q (by simp [hq]))

/-- C1 (amended): whenever the intro fallback does not fire (the combined
pre-intro lanes count at least 1024 tokens) and the configured rendering of
each history message counts no more tokens than the message as counted by the
walk's own budget test, the assembled window fits the budget: context lane
≤ ⌊B/2⌋ (enforced by the trim), dialogue lane ≤ ⌊B/2⌋ (enforced by the
walk), total ≤ B.  The assured-dialogue floor never overrides the token
budget — it only disables the summarized-range early stop — so the claimed
floor guarantee on collected `Character` messages fails (see the
counterexample), and the only budget override is the intro fallback. -/
theorem c1_context_history_budget (env : Env) (p : CtxParams)
    (st : SceneState) (budget : Nat)
    (hrender : ∀ m ∈ st.history,
      env.tok (dialogueRender env m) ≤ tokMsg env m)
    (hnointro : 1024 ≤ tokList env ((contextHistoryCore env p st budget).1
        ++ (contextHistoryCore env p st budget).2.1)) :
    tokList env (contextHistory env p st budget) ≤ budget := by
  unfold contextHistory
  have hlt : ¬ tokList env ((contextHistoryCore env p st budget).1
      ++ (contextHistoryCore env p st budget).2.1) < 1024 := by omega
  have hctx : tokList env (contextHistoryCore env p st budget).1 ≤ budget / 2 :=
    trimContext_le env (budget / 2) _
  have hdia : tokList env (contextHistoryCore env p st budget).2.1
      ≤ budget / 2 := by
    have hmem : ∀ q ∈ st.history.enum.reverse,
        env.tok (dialogueRender env q.2) ≤ tokMsg env q.2 := by
      intro q hq
      have : q ∈ st.history.enum := List.mem_reverse.mp hq
      exact hrender q.2 (snd_mem_of_mem_enumFrom st.history 0 q this)
    exact dialogueGo_tok_le env p (budget / 2)
      (summarizedTo st.archived_history st.history.length)
      st.history.enum.reverse [] 0 (by simp [tokList_nil]) hmem
  simp only [contextHistoryCore] at hlt hctx hdia ⊢
  simp only [if_neg hlt]
  rw [tokList_append]
  omega

/-- A token model that charges one token per character. -/
def c1EnvSmall : Env :=
  { tok := fun s => s.length
    diffToHuman := fun _ _ => "time ago"
    condense := fun s => s
    conversationFormat := "chat"
    actorDirectionMode := "direction"
    layeredHistoryEnabled := false
    intro := "" }

/-- A scene with exactly one available `Character` message. -/
def c1Scene : SceneState :=
  { history := [ { message := "Alice: hi there", id := 51, source := "Alice",
                   kind := .character } ],
    archived_history := [], layered_history := [], ts := "PT0S" }

/-- C1 counterexample: with the default floor of 5 and one available
`Character` message, the claim demands at least `min 5 1 = 1` collected
dialogue message, but with a budget of 10 (dialogue sub-budget 5) the
15-token message makes the walk's budget test fire before anything is
collected — the assured floor does not override the token budget. -/
theorem c1_counterexample :
    contextHistoryCollected c1EnvSmall {} c1Scene 10 <
      min 5 ((c1Scene.history.filter
        (fun m => m.kind == .character)).length) := by decide

/-- A constant token model under which rendering counts exactly as the
walk's budget test. -/
def c1EnvBig : Env :=
  { tok := fun _ => 2000
    diffToHuman := fun _ _ => "time ago"
    condense := fun s => s
    conversationFormat := "chat"
    actorDirectionMode := "direction"
    layeredHistoryEnabled := false
    intro := "the scene intro" }

def c1SceneBig : SceneState :=
  { history :=
      [ { message := "Alice: one", id := 52, source := "Alice",
          kind := .character },
        { message := "Bob: two", id := 53, source := "Bob",
          kind := .character },
        { message := "Alice: three", id := 54, source := "Alice",
          kind := .character } ],
    archived_history := [], layered_history := [], ts := "PT0S" }

theorem c1_context_history_budget_witness :
    tokList c1EnvBig (contextHistory c1EnvBig {} c1SceneBig 8192) ≤ 8192 :=
  c1_context_history_budget c1EnvBig {} c1SceneBig 8192
    (by intro m hm; exact Nat.le_refl _)
    (by decide)

/-! ## Claim C10 -/

/-- The dialogue walk with the summarized-range early stop removed: the
spec-side description of the lane "bounded only by the dialogue sub-budget"
(for comparison against `dialogueGo`). -/
def dialogueGoNoFloor (env : Env) (p : CtxParams) (budget : Nat) :
    List (Nat × SceneMessage) → List String → Nat → List String × Nat
  | [], parts, collected => (parts, collected)
  | (_, m) :: rest, parts, collected =>
      if dialogueSkip p m then
        dialogueGoNoFloor env p budget rest parts collected
      else if tokList env parts + tokMsg env m > budget then (parts, collected)
      else
        dialogueGoNoFloor env p budget rest (dialogueRender env m :: parts)
          (collected + if m.kind == .character then 1 else 0)

/-- With a zero cutoff the early stop `i < 0` never fires, so the two walks
agree. -/
theorem dialogueGo_zero_cutoff (env : Env) (p : CtxParams) (budget : Nat) :
    ∀ (l : List (Nat × SceneMessage)) (parts : List String) (collected : Nat),
      dialogueGo env p budget 0 l parts collected
        = dialogueGoNoFloor env p budget l parts collected := by
  intro l
  induction l with
  | nil => intro _ _; rfl
  | cons q rest ih =>
      intro parts collected
      rcases q with ⟨i, m⟩
      unfold dialogueGo dialogueGoNoFloor
      have hstop : ¬ (i < 0 ∧ collected ≥ p.assured_dialogue_num) := by omega
      simp only [if_neg hstop]
      by_cases hskip : dialogueSkip p m
      · simp only [hskip, if_pos]
        exact ih parts collected
      · simp only [hskip, Bool.false_eq_true, if_false]
        by_cases hbudget : tokList env parts + tokMsg env m > budget
        · simp only [if_pos hbudget]
        · simp only [if_neg hbudget]
          exact ih _ _

/-- C10: when the last archive entry's `end` index reaches (or exceeds) the
live history length, the summarized-range cutoff is reset to `0`, and the
dialogue lane of the assembler coincides with the floor-free walk — the
whole history is treated as unsummarized, collection being limited only by
the dialogue sub-budget and the skip rules. -/
theorem c10_summarized_reset (env : Env) (p : CtxParams) (st : SceneState)
    (budget : Nat) (e : ArchiveEntry) (n : Nat)
    (hlast : st.archived_history.getLast? = some e)
    (hend : e.end_idx = some n)
    (hge : st.history.length ≤ n) :
    summarizedTo st.archived_history st.history.length = 0
    ∧ (contextHistoryCore env p st budget).2
      = dialogueGoNoFloor env p (budget / 2) st.history.enum.reverse [] 0 := by
  have hraw : summarizedToRaw st.archived_history = n := by
    unfold summarizedToRaw
    rw [hlast]
    simp [hend]
  have hzero : summarizedTo st.archived_history st.history.length = 0 := by
    unfold summarizedTo
    rw [hraw]
    by_cases hn : n = 0
    · subst hn
      simp
    · have : n ≠ 0 ∧ n ≥ st.history.length := ⟨hn, hge⟩
      simp only [if_pos this]
  refine ⟨hzero, ?_⟩
  unfold contextHistoryCore
  rw [hzero]
  simp only []
  rw [dialogueGo_zero_cutoff]

/-- An archive whose last entry claims to summarize past the end of a
two-message history. -/
def c10Scene : SceneState :=
  { history :=
      [ { message := "Alice: hi", id := 61, source := "Alice",
          kind := .character },
        { message := "Bob: hey", id := 62, source := "Bob",
          kind := .character } ],
    archived_history := [ { text := "stale summary", ts := some "PT0S",
                            end_idx := some 5 } ],
    layered_history := [], ts := "PT0S" }

theorem c10_summarized_reset_witness :
    summarizedTo c10Scene.archived_history c10Scene.history.length = 0
    ∧ (contextHistoryCore c1EnvSmall {} c10Scene 8192).2
      = dialogueGoNoFloor c1EnvSmall {} (8192 / 2)
          c10Scene.history.enum.reverse [] 0 :=
  c10_summarized_reset c1EnvSmall {} c10Scene 8192
    { text := "stale summary", ts := some "PT0S", end_idx := some 5 } 5
    rfl rfl (by decide)

end Talemate
